import Mathlib

/-!
Verification of the se-rag-prep content-acquisition pipeline.

This file gives a shallow embedding, in Lean, of the pure logic of the
repository's core components:

* the GitHub URL resolver (`parse_github_url` in `src/github_downloader.py`
  and, identically, in
  `src/github-scout-assets/src/github_scout_assets/resources/github_resource.py`),
* the sparse-checkout repository fetcher (`clone_subdirectory`),
* the clone-strategy fork (`clone_repository`),
* the tree flattener (`flatten_repository_to_markdown` in
  `github_resource.py`),
* the description extractor (`extract_description_from_content`),
* the gist fetcher (`get_gist_content`),
* the sink provisioner (`scout_table` in
  `components/github_repositories.py`), and
* the ingestion orchestrator loop (`github_table_fill`).

Effectful operations (subprocess calls, network requests, filesystem reads)
are modelled by explicit environment values recording their outcomes, and
the observable remote/subprocess interactions are recorded as traces.
-/

/- ### URL Resolver (`parse_github_url`) -/

/-- Python `s.strip("/")`: remove all leading and trailing `/` characters. -/
def stripSlashes (s : String) : String :=
  String.mk (((s.data.dropWhile (· == '/')).reverse.dropWhile (· == '/')).reverse)

/-- Python `str.split("/")` on a character list: split at every `/`,
keeping empty pieces, with `"".split("/") == [""]`. -/
def splitSlash : List Char → List (List Char)
  | [] => [[]]
  | ch :: rest =>
    if ch == '/' then [] :: splitSlash rest
    else match splitSlash rest with
      | [] => [[ch]]
      | w :: ws => (ch :: w) :: ws

/-- Python `parsed.path.strip("/").split("/")`: the path segments of a URL.
A URL's `path` component (the output of `urlparse(url).path`) is taken as
input. -/
def pathSegments (path : String) : List String :=
  (splitSlash (stripSlashes path).data).map String.mk

/-- Core of `parse_github_url` (src/github_downloader.py lines 78-103 and
github_resource.py lines 19-44), applied to the already split path
segments.  `url` is the original input URL, returned unchanged in the
fallback cases.  Returns `(base_url, branch, subdirectory)`. -/
def parseFromParts (url : String) (pathParts : List String) :
    String × Option String × Option String :=
  if pathParts.length < 2 then (url, none, none)
  else if 4 ≤ pathParts.length ∧ pathParts.getD 2 "" = "tree" then
    let owner := pathParts.getD 0 ""
    let repo := pathParts.getD 1 ""
    let branch := pathParts.getD 3 ""
    let subdirectory :=
      if 4 < pathParts.length then some (String.intercalate "/" (pathParts.drop 4)) else none
    ("https://github.com/" ++ owner ++ "/" ++ repo ++ ".git", some branch, subdirectory)
  else (url, none, none)

/-- `parse_github_url(url)`: `path` plays the role of `urlparse(url).path`
(URL-component splitting is treated as an external library call whose
output is supplied as an argument). -/
def parseGithubUrl (url path : String) : String × Option String × Option String :=
  parseFromParts url (pathSegments path)

/- ### Clone strategy fork (`clone_repository`) -/

/-- The retrieval strategy chosen by `clone_repository`
(src/github_downloader.py lines 195-219): a full `git clone` of `url`
(no branch argument, so the remote default branch is checked out), or a
sparse checkout of one `subdirectory` of one `branch`. -/
inductive CloneStrategy where
  | full (url : String)
  | sparse (url : String) (branch : Option String) (subdirectory : String)
deriving DecidableEq, Repr

/-- The strategy selection in `clone_repository`: parse the URL, then
`if subdirectory:` — Python truthiness, so both `None` and the empty
string select the full clone of `base_url`. -/
def cloneRepositoryStrategy (url path : String) : CloneStrategy :=
  match parseGithubUrl url path with
  | (base, branch, subdirectory) =>
    match subdirectory with
    | some s => if s = "" then .full base else .sparse base branch s
    | none => .full base

/- ### Sparse checkout (`clone_subdirectory`) -/

/-- One observable step of `clone_subdirectory`
(src/github_downloader.py lines 105-193): a `git` subprocess invocation
with its argument vector, or the write of the
`.git/info/sparse-checkout` rule file with its full contents. -/
inductive GitStep where
  | run (args : List String)
  | writeSparse (content : String)
deriving DecidableEq, Repr

/-- Environment for one `clone_subdirectory` call: whether each git
subprocess exits with code 0, and whether the requested subdirectory
exists on disk after checkout. -/
structure GitEnv where
  initOk : Bool
  remoteAddOk : Bool
  configOk : Bool
  fetchOk : Bool
  checkoutOk : Bool
  subdirExists : Bool
deriving DecidableEq, Repr

/-- `clone_subdirectory(repo_url, branch, subdirectory, target_dir)`:
returns the boolean result together with the trace of git invocations and
sparse-checkout file writes executed before returning. -/
def cloneSubdirectory (env : GitEnv) (repoUrl branch subdirectory : String) :
    Bool × List GitStep :=
  let t1 := [GitStep.run ["git", "init"]]
  if !env.initOk then (false, t1) else
  let t2 := t1 ++ [GitStep.run ["git", "remote", "add", "origin", repoUrl]]
  if !env.remoteAddOk then (false, t2) else
  let t3 := t2 ++ [GitStep.run ["git", "config", "core.sparseCheckout", "true"]]
  if !env.configOk then (false, t3) else
  let t4 := t3 ++ [GitStep.writeSparse (subdirectory ++ "/\n")]
  let t5 := t4 ++ [GitStep.run ["git", "fetch", "origin", branch]]
  if !env.fetchOk then (false, t5) else
  let t6 := t5 ++ [GitStep.run ["git", "checkout", "origin/" ++ branch]]
  if !env.checkoutOk then (false, t6) else
  if !env.subdirExists then (false, t6) else (true, t6)

/-- The sparse-checkout rule content of a step, if it is a rule-file write. -/
def sparseWriteContent : GitStep → Option String
  | .writeSparse c => some c
  | .run _ => none

/-- Whether a step is a `git fetch` invocation. -/
def isFetchStep : GitStep → Bool
  | .run ("git" :: "fetch" :: _) => true
  | _ => false

/- ### Tree Flattener (`flatten_repository_to_markdown`, github_resource.py) -/

/-- Lowercase a string character by character (Python `str.lower()` on
ASCII content). -/
def lowerStr (s : String) : String :=
  String.mk (s.data.map Char.toLower)

/-- Python `hay.startswith(needle)` / `needle in hay` helpers. -/
def strStartsWith (s pre : String) : Bool :=
  pre.data.isPrefixOf s.data

/-- Python `s.endswith(suf)`. -/
def strEndsWith (s suf : String) : Bool :=
  suf.data.isSuffixOf s.data

/-- Index of the last `.` in a name — Python `name.rfind('.')`,
`none` when there is no dot. -/
def lastDotIdx : List Char → Option Nat
  | [] => none
  | c :: rest =>
    match lastDotIdx rest with
    | some i => some (i + 1)
    | none => if c == '.' then some 0 else none

/-- Python `pathlib.Path(name).suffix`: the substring from the last dot,
provided `0 < i < len(name) - 1`; otherwise the empty string. -/
def pySuffix (name : String) : String :=
  match lastDotIdx name.data with
  | some i => if 0 < i ∧ i < name.data.length - 1 then String.mk (name.data.drop i) else ""
  | none => ""

/-- The flattener's `code_extensions` allow-list (github_resource.py line
92; the membership test lowercases the suffix first, so the `.R` entry is
subsumed by `.r`). -/
def codeExtensions : List String :=
  [".py", ".sql", ".yaml", ".yml", ".toml", ".json", ".md", ".txt", ".sh",
   ".js", ".ts", ".css", ".html", ".r", ".R", ".ipynb"]

/-- The flattener's `language_map` (github_resource.py lines 166-181). -/
def languageMap : List (String × String) :=
  [(".py", "python"), (".sql", "sql"), (".yaml", "yaml"), (".yml", "yaml"),
   (".toml", "toml"), (".json", "json"), (".sh", "bash"), (".js", "javascript"),
   (".ts", "typescript"), (".css", "css"), (".html", "html"), (".r", "r"),
   (".R", "r"), (".ipynb", "json")]

/-- `language_map.get(ext, 'text')`. -/
def languageFor (ext : String) : String :=
  match languageMap.find? (fun p => p.1 == ext) with
  | some p => p.2
  | none => "text"

/-- One regular file under the repository root: its relative path
components (last component is the filename), its byte size (`stat`), its
text content, and whether `stat`/`open`/`read` succeed on it (a `False`
value models the per-file `except` branches that skip the file). -/
structure FileEntry where
  parts : List String
  size : Nat
  content : String
  readable : Bool
deriving DecidableEq, Repr

/-- A local checkout as the flattener observes it: the regular files of
the subtree (directory entries such as `.git` show up only as path
components of files beneath them), and — when a `.git` directory is
present and `git remote get-url origin` succeeds — the remote URL. -/
structure RepoFS where
  files : List FileEntry
  gitRemote : Option String
deriving DecidableEq, Repr

/-- The filename of an entry (`file_path.name`). -/
def fileName (f : FileEntry) : String :=
  f.parts.getLastD ""

/-- The path relative to the repository root
(`file_path.relative_to(repo_path)`), rendered with `/`. -/
def relPath (f : FileEntry) : String :=
  String.intercalate "/" f.parts

/-- Lexicographic `≤` on character lists (string comparison, via the
character code points). -/
def charListLe : List Char → List Char → Bool
  | [], _ => true
  | _ :: _, [] => false
  | a :: as, b :: bs =>
    if a.toNat < b.toNat then true
    else if b.toNat < a.toNat then false
    else charListLe as bs

/-- Path comparison used by the walk ordering. -/
def pathLe (f g : FileEntry) : Bool :=
  charListLe (relPath f).data (relPath g).data

/-- `sorted(repo_path.rglob("*"))`: the walk visits files sorted by
path (a stable sort under the lexicographic path order). -/
def sortFiles (files : List FileEntry) : List FileEntry :=
  List.insertionSort (fun f g => pathLe f g = true) files

/-- The walk-loop filter (github_resource.py lines 141-151): keep a file
iff its lowercased suffix is allow-listed, no path component is `.git`,
its name does not start with `.`, its size is at most 1 MiB, and the
`stat`/`read` calls succeed. -/
def walkKeeps (f : FileEntry) : Bool :=
  if codeExtensions.contains (lowerStr (pySuffix (fileName f))) then
    if f.parts.contains ".git" || strStartsWith (fileName f) "." then false
    else if 1024 * 1024 < f.size then false
    else f.readable
  else false

/-- The files emitted by the walk step, in visit order. -/
def emittedFiles (files : List FileEntry) : List FileEntry :=
  (sortFiles files).filter walkKeeps

/-- The markdown lines appended for one emitted file
(github_resource.py lines 161-193). -/
def fileSection (f : FileEntry) : List String :=
  let ext := lowerStr (pySuffix (fileName f))
  ["## File: " ++ relPath f, ""] ++
    (if ext == ".md" then [f.content]
     else ["```" ++ languageFor ext, f.content, "```"]) ++
    [""]

/-- All walk-emitted sections, concatenated in visit order. -/
def walkSections (files : List FileEntry) : List String :=
  ((emittedFiles files).map fileSection).flatten

/-- The ordered README filename variants (github_resource.py line 123). -/
def readmeNames : List String :=
  ["README.md", "readme.md", "README.txt", "README"]

/-- Top-level lookup of a filename (`(repo_path / name).exists()`). -/
def findTop (files : List FileEntry) (name : String) : Option FileEntry :=
  files.find? (fun f => f.parts == [name])

/-- The `## README` block: the first README variant that exists and whose
read succeeds is embedded verbatim; a failed read falls through to the
next variant (the `except: pass` keeps iterating). -/
def readmeSectionAux (files : List FileEntry) : List String → List String
  | [] => []
  | n :: rest =>
    match findTop files n with
    | some f =>
      if f.readable then ["## README", "", f.content, ""]
      else readmeSectionAux files rest
    | none => readmeSectionAux files rest

/-- The README section lines of a checkout. -/
def readmeSection (files : List FileEntry) : List String :=
  readmeSectionAux files readmeNames

/-- `flatten_repository_to_markdown(repo_path, owner, repo)`
(github_resource.py lines 83-209), as the list of markdown parts later
joined with `"\n"`.  `timestamp` is the `time.strftime(...)` value.  The
guard `fs.files.isEmpty` models `not repo_path.is_dir() or not
any(repo_path.iterdir())`; the `none` results are the source's `None`
returns. -/
def flattenRepositoryToMarkdown (fs : RepoFS) (owner repo timestamp : String) :
    Option (List String) :=
  if fs.files.isEmpty then none
  else
    let header := ["# " ++ owner ++ "/" ++ repo, "",
                   "Repository: https://github.com/" ++ owner ++ "/" ++ repo,
                   "Flattened: " ++ timestamp, ""]
    let gitPart :=
      match fs.gitRemote with
      | some u => ["**Git Remote:** " ++ u, ""]
      | none => []
    let sections := walkSections fs.files
    if (emittedFiles fs.files).length = 0 then none
    else some (header ++ gitPart ++ readmeSection fs.files ++ sections)

/-- The flattener's string result: `'\n'.join(markdown_content)`. -/
def flattenRepositoryToMarkdownString (fs : RepoFS) (owner repo timestamp : String) :
    Option String :=
  (flattenRepositoryToMarkdown fs owner repo timestamp).map (String.intercalate "\n")

/- ### Description Extractor (`extract_description_from_content`) -/

/-- Containment of `needle` in `hay` as a character list (Python
`needle in hay`). -/
def infixOfChars (needle : List Char) : List Char → Bool
  | [] => needle.isEmpty
  | c :: rest => needle.isPrefixOf (c :: rest) || infixOfChars needle rest

/-- Python `needle in hay` on strings. -/
def containsSub (hay needle : String) : Bool :=
  infixOfChars needle.data hay.data

/-- Python `str.strip()` (whitespace trim at both ends). -/
def pyStrip (s : String) : String :=
  String.mk (((s.data.dropWhile Char.isWhitespace).reverse.dropWhile Char.isWhitespace).reverse)

/-- Generic single-character split, Python `str.split(sep)` semantics. -/
def splitChar (sep : Char) : List Char → List (List Char)
  | [] => [[]]
  | c :: rest =>
    if c == sep then [] :: splitChar sep rest
    else match splitChar sep rest with
      | [] => [[c]]
      | w :: ws => (c :: w) :: ws

/-- `content.split('\n')`. -/
def splitNewlines (s : String) : List String :=
  (splitChar '\n' s.data).map String.mk

/-- The first loop of `extract_description_from_content`
(github_resource.py lines 219-230): scan for the `## README` marker,
then collect stripped non-empty lines until the next `## File:` marker,
dropping markdown headers that repeat the repo or owner name. -/
def collectReadmeLines (owner repo : String) : List String → Bool → List String
  | [], _ => []
  | l :: rest, inReadme =>
    if pyStrip l == "## README" then collectReadmeLines owner repo rest true
    else if strStartsWith l "## File:" && inReadme then []
    else if inReadme && pyStrip l != "" then
      if strStartsWith l "#" &&
          (containsSub (lowerStr l) (lowerStr repo) || containsSub (lowerStr l) (lowerStr owner)) then
        collectReadmeLines owner repo rest inReadme
      else pyStrip l :: collectReadmeLines owner repo rest inReadme
    else collectReadmeLines owner repo rest inReadme

/-- The second loop (lines 234-240): accumulate lines that are neither
headers nor bold-metadata until the joined text exceeds 200 characters. -/
def buildDescriptionParts : List String → List String → List String
  | [], acc => acc
  | l :: rest, acc =>
    if l != "" && !strStartsWith l "#" && !strStartsWith l "**" then
      let acc2 := acc ++ [l]
      if 200 < (String.intercalate " " acc2).length then acc2
      else buildDescriptionParts rest acc2
    else buildDescriptionParts rest acc

/-- The generated fallback sentence. -/
def descriptionFallback (owner repo : String) : String :=
  "Repository " ++ owner ++ "/" ++ repo ++ " containing code and documentation files."

/-- `extract_description_from_content(content, owner, repo)`
(github_resource.py lines 211-250).  The `[:500]` slice is by code
points, hence `data.take 500`. -/
def extractDescriptionFromContent (content owner repo : String) : String :=
  let readmeLines := collectReadmeLines owner repo (splitNewlines content) false
  if !readmeLines.isEmpty then
    let descParts := buildDescriptionParts (readmeLines.take 10) []
    if !descParts.isEmpty then
      String.mk ((String.intercalate " " descParts).data.take 500)
    else descriptionFallback owner repo
  else descriptionFallback owner repo

/- ### Gist Fetcher (`get_gist_content`) -/

/-- One file of a gist as returned by the gist API:
`files: {filename: {content, language}}`. -/
structure GistFile where
  filename : String
  content : String
  language : String
deriving DecidableEq, Repr

/-- The gist API response body.  `description` is `none` when the JSON
field is missing or null (in which case `gist_data.get("description",
gist_name)` falls back to the gist's configured name); `ownerLogin`
likewise defaults to `"unknown"`. -/
structure GistData where
  description : Option String
  ownerLogin : Option String
  htmlUrl : String
  createdAt : String
  updatedAt : String
  files : List GistFile
deriving DecidableEq, Repr

/-- The gist fetcher's smaller `language_map`
(github_resource.py lines 339-349). -/
def gistLanguageMap : List (String × String) :=
  [("python", "python"), ("sql", "sql"), ("yaml", "yaml"), ("json", "json"),
   ("javascript", "javascript"), ("typescript", "typescript"), ("bash", "bash"),
   ("shell", "bash"), ("r", "r")]

/-- `language_map.get(language, "text")`. -/
def gistLanguageFor (language : String) : String :=
  match gistLanguageMap.find? (fun p => p.1 == language) with
  | some p => p.2
  | none => "text"

/-- The markdown lines for one gist file with non-empty content
(github_resource.py lines 334-361). -/
def gistFileSection (f : GistFile) : List String :=
  let language := if lowerStr f.language == "" then "text" else lowerStr f.language
  ["## File: " ++ f.filename, ""] ++
    (if strEndsWith (lowerStr f.filename) ".md" then [f.content]
     else ["```" ++ gistLanguageFor language, f.content, "```"]) ++
    [""]

/-- The document built for a gist, with the fields the claims inspect. -/
structure GistDoc where
  key : String
  title : String
  description : String
  content : String
  fileCount : Nat
deriving DecidableEq, Repr

/-- `get_gist_content(gist_id, gist_name)` (github_resource.py lines
291-390).  `fetch` is the outcome of the API request/JSON decoding: an
`error` models any raised exception (network failure, bad response
status), which the function logs and swallows, returning the empty
list. -/
def getGistContent (fetch : Except String GistData) (gistId gistName : String) :
    List GistDoc :=
  match fetch with
  | .error _ => []
  | .ok g =>
    let gistDescription := g.description.getD gistName
    let owner := g.ownerLogin.getD "unknown"
    let headerPart :=
      ["# Gist: " ++ gistDescription, "",
       "**Gist ID:** " ++ gistId,
       "**Owner:** " ++ owner,
       "**URL:** " ++ g.htmlUrl,
       "**Created:** " ++ g.createdAt,
       "**Updated:** " ++ g.updatedAt, ""] ++
      (if gistDescription != "" then ["**Description:** " ++ gistDescription, ""] else [])
    let withContent := g.files.filter (fun f => f.content != "")
    if 0 < withContent.length then
      [{ key := "gist_" ++ gistId,
         title := if gistDescription != "" then gistDescription else gistName,
         description :=
           if gistDescription != "" then gistDescription
           else "GitHub Gist " ++ gistName ++ " containing " ++
             toString withContent.length ++ " file(s)",
         content := String.intercalate "\n" (headerPart ++ (withContent.map gistFileSection).flatten),
         fileCount := withContent.length }]
    else []

/- ### Sink Provisioner (`scout_table`) -/

/-- A table as listed by the sink's `get_tables`. -/
structure TableInfo where
  id : String
  name : String
deriving DecidableEq, Repr

/-- One remote call issued by `scout_table`. -/
inductive ScoutOp where
  | getTables
  | createTable (name : String)
  | deleteTable (tableId : String)
  | getTableSchema (tableId : String)
deriving DecidableEq, Repr

/-- Environment for one `scout_table` materialization: the sink's
response to `get_tables`, and the table id a `create_table` call would
return. -/
structure ScoutTableEnv where
  tables : List TableInfo
  createdTableId : String
deriving DecidableEq, Repr

/-- `scout_table` (components/github_repositories.py lines 117-160):
look up the configured table name among the collection's tables (first
exact name match wins, as in the loop-with-break), then return
`(status, table_id)` together with the trace of remote calls issued. -/
def scoutTable (tableName : String) (forceRecreateTable : Bool) (env : ScoutTableEnv) :
    (String × String) × List ScoutOp :=
  match env.tables.find? (fun t => t.name == tableName) with
  | some existingTable =>
    if !forceRecreateTable then
      (("existing", existingTable.id), [.getTables])
    else
      (("recreated", env.createdTableId),
       [.getTables, .deleteTable existingTable.id, .createTable tableName,
        .getTableSchema env.createdTableId])
  | none =>
    (("created", env.createdTableId), [.getTables, .createTable tableName])

/- ### Ingestion Orchestrator (`github_table_fill`) -/

/-- A flattened document as the orchestrator tags it. -/
structure ScoutDoc where
  key : String
  category : String
  source : String
deriving DecidableEq, Repr

/-- One configured repository source, bundled with the outcome of
`github.get_repository_content(owner, repo)` for it: `error` models an
exception raised while fetching or flattening, `ok docs` the returned
document list. -/
structure RepoSource where
  owner : String
  repo : String
  category : String
  fetch : Except String (List ScoutDoc)

/-- One configured gist source with the outcome of
`github.get_gist_content(id, name)`. -/
structure GistSource where
  id : String
  name : String
  fetch : Except String (List ScoutDoc)

/-- The placeholder gist ids skipped before any network call
(github_repositories.py line 233). -/
def placeholderGistIds : List String :=
  ["your_gist_id_here", "gist_id_placeholder"]

/-- Tag a repository document: `doc["category"] = repo_config.category;
doc["source"] = "github_component"`. -/
def tagRepoDocs (category : String) (docs : List ScoutDoc) : List ScoutDoc :=
  docs.map (fun d => { d with category := category, source := "github_component" })

/-- The repository loop of `github_table_fill` (lines 213-226): on an
exception, log and continue; on a non-empty result, tag, aggregate and
count.  Returns the aggregated documents in source order together with
`repos_processed`. -/
def processRepoSources : List RepoSource → List ScoutDoc × Nat
  | [] => ([], 0)
  | s :: rest =>
    let r := processRepoSources rest
    match s.fetch with
    | .error _ => r
    | .ok ds => if ds.isEmpty then r else (tagRepoDocs s.category ds ++ r.1, r.2 + 1)

/-- Tag a gist document: `doc["category"] = "gist"`. -/
def tagGistDocs (docs : List ScoutDoc) : List ScoutDoc :=
  docs.map (fun d => { d with category := "gist", source := "github_component" })

/-- The gist loop of `github_table_fill` (lines 229-248): placeholder ids
are skipped outright, exceptions are logged and skipped. -/
def processGistSources : List GistSource → List ScoutDoc × Nat
  | [] => ([], 0)
  | s :: rest =>
    let r := processGistSources rest
    if placeholderGistIds.contains s.id then r
    else
      match s.fetch with
      | .error _ => r
      | .ok ds => if ds.isEmpty then r else (tagGistDocs ds ++ r.1, r.2 + 1)

/-- The observable outcome of `github_table_fill`: the batch write calls
issued (each with its document payload) and the reported counts. -/
structure FillOutcome where
  writes : List (List ScoutDoc)
  totalDocuments : Nat
  reposProcessed : Nat
  gistsProcessed : Nat
deriving DecidableEq, Repr

/-- The aggregation and single batch write of `github_table_fill`
(lines 207-293): process all repositories, then all gists, concatenate
the surviving documents, and issue exactly one `write_documents` call
when the list is non-empty (none when it is empty). -/
def githubTableFill (repos : List RepoSource) (gists : List GistSource) : FillOutcome :=
  let repoResult := processRepoSources repos
  let gistResult := processGistSources gists
  let allDocuments := repoResult.1 ++ gistResult.1
  if allDocuments.isEmpty then
    { writes := [], totalDocuments := 0,
      reposProcessed := repoResult.2, gistsProcessed := gistResult.2 }
  else
    { writes := [allDocuments], totalDocuments := allDocuments.length,
      reposProcessed := repoResult.2, gistsProcessed := gistResult.2 }

/-- Helper: what the resolver returns on any path whose segments are
`owner / repo / "tree" / branch / rest`. -/
theorem parseGithubUrl_tree_aux (url path owner repo branch : String) (rest : List String)
    (h : pathSegments path = owner :: repo :: "tree" :: branch :: rest) :
    parseGithubUrl url path =
      ("https://github.com/" ++ owner ++ "/" ++ repo ++ ".git", some branch,
        if rest = [] then none else some (String.intercalate "/" rest)) := by
  unfold parseGithubUrl parseFromParts
  rw [h]
  have h2 : ¬ ((owner :: repo :: "tree" :: branch :: rest).length < 2) := by
    simp [List.length_cons]
  rw [if_neg h2]
  have h4 : 4 ≤ (owner :: repo :: "tree" :: branch :: rest).length ∧
      (owner :: repo :: "tree" :: branch :: rest).getD 2 "" = "tree" := by
    refine ⟨?_, rfl⟩
    simp [List.length_cons]
  rw [if_pos h4]
  cases rest with
  | nil => simp
  | cons a as =>
    have h5 : 4 < (owner :: repo :: "tree" :: branch :: a :: as).length := by
      simp [List.length_cons]
    simp [h5]

/-- `charListLe` is total. -/
theorem charListLe_total : ∀ as bs : List Char, charListLe as bs = true ∨ charListLe bs as = true := by
  intro as
  induction as with
  | nil => intro bs; left; rfl
  | cons a as ih =>
    intro bs
    cases bs with
    | nil => right; rfl
    | cons b bs =>
      by_cases h1 : a.toNat < b.toNat
      · left; simp [charListLe, h1]
      · by_cases h2 : b.toNat < a.toNat
        · right; simp [charListLe, h2]
        · rcases ih bs with h | h
          · left; simp [charListLe, h1, h2, h]
          · right; simp [charListLe, h1, h2, h]

/-- `charListLe` is transitive. -/
theorem charListLe_trans : ∀ as bs cs : List Char,
    charListLe as bs = true → charListLe bs cs = true → charListLe as cs = true := by
  intro as
  induction as with
  | nil => intro bs cs _ _; rfl
  | cons a as ih =>
    intro bs cs h1 h2
    cases bs with
    | nil => simp [charListLe] at h1
    | cons b bs =>
      cases cs with
      | nil => simp [charListLe] at h2
      | cons c cs =>
        by_cases hab : a.toNat < b.toNat <;> by_cases hba : b.toNat < a.toNat <;>
          by_cases hbc : b.toNat < c.toNat <;> by_cases hcb : c.toNat < b.toNat <;>
            simp [charListLe, hab, hba, hbc, hcb] at h1 h2 ⊢ <;>
              first
                | omega
                | (have hac : ¬ a.toNat < c.toNat := by omega
                   have hca : ¬ c.toNat < a.toNat := by omega
                   simp [hac, hca]
                   first
                     | exact ih bs cs h1 h2
                     | exact ⟨by omega, ih bs cs h1 h2⟩)

/-- C1 (counterexample): on a tree URL with exactly 4 path segments the
resolver returns an *absent* subdirectory (`none`), not the
present-but-empty string `""` the claim asserts. -/
theorem parse_github_url_four_segments_counterexample :
    (parseGithubUrl "https://github.com/acme/widgets/tree/main" "/acme/widgets/tree/main").2.2 ≠
      some "" ∧
    (parseGithubUrl "https://github.com/acme/widgets/tree/main" "/acme/widgets/tree/main").2.2 =
      none := by
  decide

/-- C1 (amended): for every URL whose path splits into segments
`owner / repo / "tree" / branch / rest`, the resolver returns the
canonical repo URL `https://github.com/{owner}/{repo}.git` and the
branch; the subdirectory is the remaining segments joined by `/` when
`rest` is non-empty (segment count > 4), and is *absent* (`None`) — not
the empty string — when the path has exactly 4 segments. -/
theorem parse_github_url_tree_subdirectory (url path owner repo branch : String)
    (rest : List String)
    (h : pathSegments path = owner :: repo :: "tree" :: branch :: rest) :
    parseGithubUrl url path =
      ("https://github.com/" ++ owner ++ "/" ++ repo ++ ".git", some branch,
        if rest = [] then none else some (String.intercalate "/" rest)) :=
  parseGithubUrl_tree_aux url path owner repo branch rest h

/-- C1 witness: the resolver evaluated on a concrete deep tree URL. -/
theorem parse_github_url_tree_subdirectory_witness :
    parseGithubUrl "https://github.com/acme/widgets/tree/main/src/lib"
        "/acme/widgets/tree/main/src/lib" =
      ("https://github.com/acme/widgets.git", some "main", some "src/lib") :=
  (parse_github_url_tree_subdirectory "https://github.com/acme/widgets/tree/main/src/lib"
    "/acme/widgets/tree/main/src/lib" "acme" "widgets" "main" ["src", "lib"]
    (by decide)).trans (by decide)

/-- C10: on a tree URL with exactly 4 path segments, `clone_repository`
parses the subdirectory as absent and takes the full-clone strategy on
the canonical repository URL; the parsed branch is discarded (the
chosen strategy carries no branch, so `git clone` checks out the
remote's default branch). -/
theorem clone_repository_four_segments_full_clone (url path owner repo branch : String)
    (h : pathSegments path = [owner, repo, "tree", branch]) :
    cloneRepositoryStrategy url path =
      CloneStrategy.full ("https://github.com/" ++ owner ++ "/" ++ repo ++ ".git") := by
  unfold cloneRepositoryStrategy
  rw [parseGithubUrl_tree_aux url path owner repo branch [] h]
  simp

/-- C10 witness: the strategy fork evaluated on a concrete 4-segment
tree URL. -/
theorem clone_repository_four_segments_full_clone_witness :
    cloneRepositoryStrategy "https://github.com/acme/widgets/tree/main"
        "/acme/widgets/tree/main" =
      CloneStrategy.full "https://github.com/acme/widgets.git" :=
  (clone_repository_four_segments_full_clone "https://github.com/acme/widgets/tree/main"
    "/acme/widgets/tree/main" "acme" "widgets" "main" (by decide)).trans (by decide)

/-- C2: when every git subprocess of a sparse-checkout fetch succeeds,
the trace contains exactly one sparse-checkout rule write, whose content
is the target subdirectory followed by the trailing path separator
(`"{subdirectory}/\n"`); the only fetch invocation is
`git fetch origin {branch}` (only the named branch); and the overall
result equals the on-disk existence of the requested subdirectory after
checkout — so the fetch returns failure when the subdirectory is absent
even though every git step succeeded. -/
theorem clone_subdirectory_sparse_rule (env : GitEnv) (repoUrl branch subdirectory : String)
    (h1 : env.initOk = true) (h2 : env.remoteAddOk = true) (h3 : env.configOk = true)
    (h4 : env.fetchOk = true) (h5 : env.checkoutOk = true) :
    (cloneSubdirectory env repoUrl branch subdirectory).2.filterMap sparseWriteContent =
        [subdirectory ++ "/\n"] ∧
    (cloneSubdirectory env repoUrl branch subdirectory).2.filter isFetchStep =
        [GitStep.run ["git", "fetch", "origin", branch]] ∧
    (cloneSubdirectory env repoUrl branch subdirectory).1 = env.subdirExists := by
  obtain ⟨i, r, c, f, k, s⟩ := env
  simp only at h1 h2 h3 h4 h5
  subst h1 h2 h3 h4 h5
  cases s <;>
    simp [cloneSubdirectory, sparseWriteContent, isFetchStep, List.filterMap, List.filter]

/-- C2 witness: a fully successful sparse checkout of `docs` from branch
`main`. -/
theorem clone_subdirectory_sparse_rule_witness :
    (cloneSubdirectory ⟨true, true, true, true, true, true⟩
        "https://github.com/acme/widgets.git" "main" "docs").2.filterMap sparseWriteContent =
      ["docs/\n"] ∧
    (cloneSubdirectory ⟨true, true, true, true, true, true⟩
        "https://github.com/acme/widgets.git" "main" "docs").2.filter isFetchStep =
      [GitStep.run ["git", "fetch", "origin", "main"]] ∧
    (cloneSubdirectory ⟨true, true, true, true, true, true⟩
        "https://github.com/acme/widgets.git" "main" "docs").1 = true := by
  have h := clone_subdirectory_sparse_rule ⟨true, true, true, true, true, true⟩
    "https://github.com/acme/widgets.git" "main" "docs" rfl rfl rfl rfl rfl
  exact ⟨h.1.trans (by decide), h.2.1, h.2.2⟩

/-- Sorting for the walk is a permutation: membership is preserved. -/
theorem mem_sortFiles (f : FileEntry) (files : List FileEntry) :
    f ∈ sortFiles files ↔ f ∈ files :=
  (List.perm_insertionSort _ files).mem_iff

/-- Membership in the walk's emitted file list. -/
theorem mem_emittedFiles (f : FileEntry) (files : List FileEntry) :
    f ∈ emittedFiles files ↔ f ∈ files ∧ walkKeeps f = true := by
  unfold emittedFiles
  rw [List.mem_filter, mem_sortFiles]

/-- Characterization of the walk-loop filter. -/
theorem walkKeeps_eq_true (f : FileEntry) :
    walkKeeps f = true ↔
      codeExtensions.contains (lowerStr (pySuffix (fileName f))) = true ∧
      f.parts.contains ".git" = false ∧ strStartsWith (fileName f) "." = false ∧
      f.size ≤ 1024 * 1024 ∧ f.readable = true := by
  unfold walkKeeps
  constructor
  · intro h
    split at h
    case isTrue hext =>
      split at h
      case isTrue hgh => exact absurd h (by simp)
      case isFalse hgh =>
        split at h
        case isTrue hsz => exact absurd h (by simp)
        case isFalse hsz =>
          simp only [Bool.or_eq_true, not_or, Bool.not_eq_true] at hgh
          exact ⟨hext, hgh.1, hgh.2, by omega, h⟩
    case isFalse hext => exact absurd h (by simp)
  · rintro ⟨hext, hgit, hhid, hsz, hrd⟩
    have hsz' : ¬ (1024 * 1024 < f.size) := by omega
    have hext' : lowerStr (pySuffix (fileName f)) ∈ codeExtensions := by simpa using hext
    have hgit' : ".git" ∉ f.parts := by simpa using hgit
    simp [hext, hgit, hext', hgit', hhid, hsz', hrd]

/-- C3: the flattener's output is a deterministic function of the
directory contents and the fixed constants: the walk emits files in
lexicographic path order, and flattening the same tree twice yields
identical markdown lines except for the single generation-timestamp
line (`Flattened: ...`), with an identical remainder `tail`. -/
theorem flatten_deterministic_modulo_timestamp (fs : RepoFS) (owner repo t1 t2 : String) :
    (emittedFiles fs.files).Pairwise (fun a b => pathLe a b = true) ∧
    ((flattenRepositoryToMarkdown fs owner repo t1 = none ∧
      flattenRepositoryToMarkdown fs owner repo t2 = none) ∨
     ∃ tail,
       flattenRepositoryToMarkdown fs owner repo t1 =
         some (("# " ++ owner ++ "/" ++ repo) :: "" ::
           ("Repository: https://github.com/" ++ owner ++ "/" ++ repo) ::
           ("Flattened: " ++ t1) :: tail) ∧
       flattenRepositoryToMarkdown fs owner repo t2 =
         some (("# " ++ owner ++ "/" ++ repo) :: "" ::
           ("Repository: https://github.com/" ++ owner ++ "/" ++ repo) ::
           ("Flattened: " ++ t2) :: tail)) := by
  constructor
  · haveI : IsTotal FileEntry (fun a b => pathLe a b = true) :=
      ⟨fun a b => charListLe_total _ _⟩
    haveI : IsTrans FileEntry (fun a b => pathLe a b = true) :=
      ⟨fun a b c => charListLe_trans _ _ _⟩
    exact (List.sorted_insertionSort _ fs.files).filter _
  · by_cases h1 : fs.files.isEmpty = true
    · left
      constructor <;> simp [flattenRepositoryToMarkdown, h1]
    · by_cases h2 : (emittedFiles fs.files).length = 0
      · left
        constructor <;> simp [flattenRepositoryToMarkdown, h1, h2]
      · right
        refine ⟨"" :: ((match fs.gitRemote with
            | some u => ["**Git Remote:** " ++ u, ""]
            | none => []) ++ readmeSection fs.files ++ walkSections fs.files), ?_, ?_⟩ <;>
          simp [flattenRepositoryToMarkdown, h1, h2]

/-- C7 (counterexample): a directory containing only `README.md` does
*not* yield `none` — `README.md` has the allow-listed suffix `.md`, so
the walk emits it as a file section in addition to the README section,
and the flattener returns a document. -/
theorem flatten_readme_only_counterexample :
    flattenRepositoryToMarkdown ⟨[⟨["README.md"], 5, "hello", true⟩], none⟩ "o" "r" "ts" =
      some ["# o/r", "", "Repository: https://github.com/o/r", "Flattened: ts", "",
            "## README", "", "hello", "", "## File: README.md", "", "hello", ""] ∧
    flattenRepositoryToMarkdown ⟨[⟨["README.md"], 5, "hello", true⟩], none⟩ "o" "r" "ts" ≠
      none := by
  decide

/-- C7 (amended): whenever the walk step emits zero files the flattener
returns `none`; in particular a directory whose only file is an
extensionless `README` yields `none` (the bare name `README` has empty
suffix, so it is not walked) — but a README variant with an allow-listed
suffix, such as `README.md`, is itself emitted as a walked file and does
produce a document. -/
theorem flatten_zero_emitted_none (fs : RepoFS) (owner repo ts : String)
    (size : Nat) (text : String) (rb : Bool) (remote : Option String) :
    (emittedFiles fs.files = [] → flattenRepositoryToMarkdown fs owner repo ts = none) ∧
    flattenRepositoryToMarkdown ⟨[⟨["README"], size, text, rb⟩], remote⟩ owner repo ts =
      none := by
  constructor
  · intro h
    by_cases h1 : fs.files.isEmpty = true
    · simp [flattenRepositoryToMarkdown, h1]
    · simp [flattenRepositoryToMarkdown, h1, h]
  · have he : emittedFiles [(⟨["README"], size, text, rb⟩ : FileEntry)] = [] := rfl
    simp [flattenRepositoryToMarkdown, he]

/-- C7 witness: a concrete bare-README directory. -/
theorem flatten_zero_emitted_none_witness :
    emittedFiles [(⟨["README"], 3, "hi", true⟩ : FileEntry)] = [] ∧
    flattenRepositoryToMarkdown ⟨[⟨["README"], 3, "hi", true⟩], none⟩ "o" "r" "ts" = none := by
  have h := flatten_zero_emitted_none ⟨[⟨["README"], 3, "hi", true⟩], none⟩ "o" "r" "ts"
    3 "hi" true none
  exact ⟨by decide, h.1 (by decide)⟩

/-- C8: the walk excludes any file larger than 1 MiB regardless of
extension, any file whose name starts with `.` regardless of size or
extension, and any file with a `.git` path component; every other file
with an allow-listed extension (whose `stat`/`read` succeed, modelled by
`readable`) is emitted. -/
theorem walk_filter_excludes_and_emits (f : FileEntry) (files : List FileEntry)
    (hf : f ∈ files) :
    (1024 * 1024 < f.size → f ∉ emittedFiles files) ∧
    (strStartsWith (fileName f) "." = true → f ∉ emittedFiles files) ∧
    (f.parts.contains ".git" = true → f ∉ emittedFiles files) ∧
    (codeExtensions.contains (lowerStr (pySuffix (fileName f))) = true →
      f.parts.contains ".git" = false → strStartsWith (fileName f) "." = false →
      f.size ≤ 1024 * 1024 → f.readable = true → f ∈ emittedFiles files) := by
  refine ⟨?_, ?_, ?_, ?_⟩
  · intro hsz hin
    rw [mem_emittedFiles] at hin
    obtain ⟨-, -, -, hsz', -⟩ := (walkKeeps_eq_true f).mp hin.2
    omega
  · intro hhid hin
    rw [mem_emittedFiles] at hin
    obtain ⟨-, -, hhid', -, -⟩ := (walkKeeps_eq_true f).mp hin.2
    rw [hhid] at hhid'
    exact absurd hhid' (by simp)
  · intro hgit hin
    rw [mem_emittedFiles] at hin
    obtain ⟨-, hgit', -, -, -⟩ := (walkKeeps_eq_true f).mp hin.2
    rw [hgit] at hgit'
    exact absurd hgit' (by simp)
  · intro hext hgit hhid hsz hrd
    rw [mem_emittedFiles]
    exact ⟨hf, (walkKeeps_eq_true f).mpr ⟨hext, hgit, hhid, hsz, hrd⟩⟩

/-- C8 witness: an allow-listed, small, visible, readable file is
emitted by the walk. -/
theorem walk_filter_excludes_and_emits_witness :
    (⟨["src", "main.py"], 10, "print(1)", true⟩ : FileEntry) ∈
      emittedFiles [⟨["src", "main.py"], 10, "print(1)", true⟩] :=
  (walk_filter_excludes_and_emits ⟨["src", "main.py"], 10, "print(1)", true⟩
    [⟨["src", "main.py"], 10, "print(1)", true⟩] (by decide)).2.2.2
    (by decide) (by decide) (by decide) (by decide) (by decide)

/-- A repository source whose fetch raises contributes nothing and stops
nothing: the loop result is as if the source were absent. -/
theorem processRepoSources_skip_error (pre suf : List RepoSource) (x : RepoSource)
    (e : String) (hx : x.fetch = Except.error e) :
    processRepoSources (pre ++ x :: suf) = processRepoSources (pre ++ suf) := by
  induction pre with
  | nil => simp [processRepoSources, hx]
  | cons s rest ih => simp [processRepoSources, ih]

/-- A gist source whose fetch raises contributes nothing and stops
nothing. -/
theorem processGistSources_skip_error (pre suf : List GistSource) (x : GistSource)
    (e : String) (hx : x.fetch = Except.error e) :
    processGistSources (pre ++ x :: suf) = processGistSources (pre ++ suf) := by
  induction pre with
  | nil =>
    by_cases hp : x.id ∈ placeholderGistIds
    · simp [processGistSources, hp]
    · simp [processGistSources, hp, hx]
  | cons s rest ih => simp [processGistSources, ih]

/-- C4: an exception while fetching or flattening one source is
converted into a log-and-skip at the orchestrator boundary — the run
outcome equals that of the same run without the failing source, so every
subsequent source is still attempted and the surviving documents are
still aggregated; and at most one batch write is issued, carrying
exactly the aggregated surviving documents when there are any. -/
theorem orchestrator_skips_failed_sources
    (pre suf : List RepoSource) (x : RepoSource) (e : String)
    (gpre gsuf : List GistSource) (gx : GistSource) (e2 : String)
    (repos : List RepoSource) (gists : List GistSource) :
    (x.fetch = Except.error e →
      githubTableFill (pre ++ x :: suf) gists = githubTableFill (pre ++ suf) gists) ∧
    (gx.fetch = Except.error e2 →
      githubTableFill repos (gpre ++ gx :: gsuf) = githubTableFill repos (gpre ++ gsuf)) ∧
    (githubTableFill repos gists).writes.length ≤ 1 ∧
    ((githubTableFill repos gists).writes = [] ∨
      (githubTableFill repos gists).writes =
        [(processRepoSources repos).1 ++ (processGistSources gists).1]) := by
  refine ⟨?_, ?_, ?_, ?_⟩
  · intro hx
    unfold githubTableFill
    rw [processRepoSources_skip_error pre suf x e hx]
  · intro hg
    unfold githubTableFill
    rw [processGistSources_skip_error gpre gsuf gx e2 hg]
  · unfold githubTableFill
    by_cases h : ((processRepoSources repos).1 ++ (processGistSources gists).1).isEmpty = true
    · simp [h]
    · simp [h]
  · unfold githubTableFill
    by_cases h : ((processRepoSources repos).1 ++ (processGistSources gists).1).isEmpty = true
    · left; simp [h]
    · right; simp [h]

/-- C4 witness: a middle repository source and a trailing gist source
fail; the run outcome equals the run without them. -/
theorem orchestrator_skips_failed_sources_witness :
    githubTableFill
        [⟨"o1", "r1", "examples", Except.ok [⟨"o1/r1", "", ""⟩]⟩,
         ⟨"o2", "r2", "examples", Except.error "clone failed"⟩,
         ⟨"o3", "r3", "examples", Except.ok [⟨"o3/r3", "", ""⟩]⟩]
        [⟨"abc", "g1", Except.ok [⟨"gist_abc", "", ""⟩]⟩] =
      githubTableFill
        [⟨"o1", "r1", "examples", Except.ok [⟨"o1/r1", "", ""⟩]⟩,
         ⟨"o3", "r3", "examples", Except.ok [⟨"o3/r3", "", ""⟩]⟩]
        [⟨"abc", "g1", Except.ok [⟨"gist_abc", "", ""⟩]⟩] ∧
    githubTableFill
        [⟨"o1", "r1", "examples", Except.ok [⟨"o1/r1", "", ""⟩]⟩]
        [⟨"abc", "g1", Except.ok [⟨"gist_abc", "", ""⟩]⟩,
         ⟨"def", "g2", Except.error "HTTP 404"⟩] =
      githubTableFill
        [⟨"o1", "r1", "examples", Except.ok [⟨"o1/r1", "", ""⟩]⟩]
        [⟨"abc", "g1", Except.ok [⟨"gist_abc", "", ""⟩]⟩] := by
  have h := orchestrator_skips_failed_sources
    [⟨"o1", "r1", "examples", Except.ok [⟨"o1/r1", "", ""⟩]⟩]
    [⟨"o3", "r3", "examples", Except.ok [⟨"o3/r3", "", ""⟩]⟩]
    ⟨"o2", "r2", "examples", Except.error "clone failed"⟩ "clone failed"
    [⟨"abc", "g1", Except.ok [⟨"gist_abc", "", ""⟩]⟩] []
    ⟨"def", "g2", Except.error "HTTP 404"⟩ "HTTP 404"
    [⟨"o1", "r1", "examples", Except.ok [⟨"o1/r1", "", ""⟩]⟩]
    [⟨"abc", "g1", Except.ok [⟨"gist_abc", "", ""⟩]⟩]
  exact ⟨h.1 rfl, h.2.1 rfl⟩

/-- C5: the gist fetcher returns zero or one documents and never raises:
a fetch failure yields the empty list, and a gist all of whose files
have empty content yields zero documents. -/
theorem get_gist_content_spec (r : Except String GistData) (gistId gistName : String) :
    (getGistContent r gistId gistName).length ≤ 1 ∧
    (∀ e, r = Except.error e → getGistContent r gistId gistName = []) ∧
    (∀ g, r = Except.ok g → (∀ f ∈ g.files, f.content = "") →
      getGistContent r gistId gistName = []) := by
  refine ⟨?_, ?_, ?_⟩
  · cases r with
    | error e => simp [getGistContent]
    | ok g =>
      unfold getGistContent
      by_cases h : 0 < (g.files.filter (fun f => f.content != "")).length
      · simp [h]
      · simp [h]
  · intro e he
    subst he
    rfl
  · intro g hg hall
    subst hg
    unfold getGistContent
    have h : g.files.filter (fun f => f.content != "") = [] := by
      rw [List.filter_eq_nil_iff]
      intro f hf
      simp [hall f hf]
    simp [h]

/-- C5 witness: a gist whose only file has empty content yields zero
documents (and at most one in general). -/
theorem get_gist_content_spec_witness :
    (getGistContent (Except.ok ⟨some "d", some "me", "u", "c1", "u2",
        [⟨"a.txt", "", "Text"⟩]⟩) "gid" "gname").length ≤ 1 ∧
    getGistContent (Except.ok ⟨some "d", some "me", "u", "c1", "u2",
        [⟨"a.txt", "", "Text"⟩]⟩) "gid" "gname" = [] := by
  have h := get_gist_content_spec (Except.ok ⟨some "d", some "me", "u", "c1", "u2",
    [⟨"a.txt", "", "Text"⟩]⟩) "gid" "gname"
  exact ⟨h.1, h.2.2 _ rfl (by decide)⟩

/-- C6: the description extractor always returns a string; when no
usable README-derived line survives the two filtering passes it returns
exactly the generated fallback sentence, and in every case the result is
either that fallback or a README-derived string truncated to at most 500
characters. -/
theorem extract_description_spec (content owner repo : String) :
    (buildDescriptionParts
        ((collectReadmeLines owner repo (splitNewlines content) false).take 10) [] = [] →
      extractDescriptionFromContent content owner repo = descriptionFallback owner repo) ∧
    (extractDescriptionFromContent content owner repo = descriptionFallback owner repo ∨
      (extractDescriptionFromContent content owner repo).length ≤ 500) := by
  by_cases h1 : (collectReadmeLines owner repo (splitNewlines content) false).isEmpty = true
  · have hres : extractDescriptionFromContent content owner repo =
        descriptionFallback owner repo := by
      unfold extractDescriptionFromContent
      simp [h1]
    exact ⟨fun _ => hres, Or.inl hres⟩
  · by_cases h2 : (buildDescriptionParts
        ((collectReadmeLines owner repo (splitNewlines content) false).take 10) []).isEmpty = true
    · have hres : extractDescriptionFromContent content owner repo =
          descriptionFallback owner repo := by
        unfold extractDescriptionFromContent
        simp [h1, h2]
      exact ⟨fun _ => hres, Or.inl hres⟩
    · have hres : extractDescriptionFromContent content owner repo =
          String.mk ((String.intercalate " "
            (buildDescriptionParts
              ((collectReadmeLines owner repo (splitNewlines content) false).take 10)
              [])).data.take 500) := by
        unfold extractDescriptionFromContent
        simp [h1, h2]
      refine ⟨fun h => absurd (by rw [h]; rfl) h2, Or.inr ?_⟩
      rw [hres]
      show ((String.intercalate " "
        (buildDescriptionParts
          ((collectReadmeLines owner repo (splitNewlines content) false).take 10)
          [])).data.take 500).length ≤ 500
      rw [List.length_take]
      exact min_le_left _ _

/-- C6 witness: content with no README section yields exactly the
fallback sentence. -/
theorem extract_description_spec_witness :
    buildDescriptionParts
        ((collectReadmeLines "o" "r" (splitNewlines "no readme here") false).take 10) [] = [] ∧
    extractDescriptionFromContent "no readme here" "o" "r" =
      descriptionFallback "o" "r" := by
  have h := extract_description_spec "no readme here" "o" "r"
  exact ⟨by decide, h.1 (by decide)⟩

/-- C9: with `force_recreate_table = False` and a table of the
configured name present in the collection, `scout_table` returns that
(first-matching) table's id with status `"existing"`, and its remote
trace is exactly the single `get_tables` read — no create-table and no
delete-table call. -/
theorem scout_table_existing_readonly (env : ScoutTableEnv) (tableName : String)
    (t : TableInfo)
    (hfind : env.tables.find? (fun u => u.name == tableName) = some t) :
    t ∈ env.tables ∧ t.name = tableName ∧
    scoutTable tableName false env = (("existing", t.id), [ScoutOp.getTables]) ∧
    (∀ n, ScoutOp.createTable n ∉ (scoutTable tableName false env).2) ∧
    (∀ i, ScoutOp.deleteTable i ∉ (scoutTable tableName false env).2) := by
  have hmem : t ∈ env.tables := List.mem_of_find?_eq_some hfind
  have hname : t.name = tableName := by
    have := List.find?_some hfind
    simpa using this
  have heq : scoutTable tableName false env = (("existing", t.id), [ScoutOp.getTables]) := by
    unfold scoutTable
    rw [hfind]
    rfl
  refine ⟨hmem, hname, heq, ?_, ?_⟩
  · intro n
    rw [heq]
    simp
  · intro i
    rw [heq]
    simp

/-- C9 witness: an existing table of the configured name is returned
with only the read in the trace. -/
theorem scout_table_existing_readonly_witness :
    scoutTable "GitHub Repositories and Files" false
        ⟨[⟨"tbl_1", "Other"⟩, ⟨"tbl_2", "GitHub Repositories and Files"⟩], "tbl_new"⟩ =
      (("existing", "tbl_2"), [ScoutOp.getTables]) :=
  (scout_table_existing_readonly
    ⟨[⟨"tbl_1", "Other"⟩, ⟨"tbl_2", "GitHub Repositories and Files"⟩], "tbl_new"⟩
    "GitHub Repositories and Files" ⟨"tbl_2", "GitHub Repositories and Files"⟩
    (by decide)).2.2.1
